import Mathlib

/-!
Shallow embedding of the GIF structural decoder of `src/sample/gif/gif.node.js`
(repository cuixiping/jParser) together with the cursor-engine interface it
consumes.  The byte buffer is a `List Nat` (each entry a byte value 0..255);
the cursor is an explicit position threaded through every parser.  Fallible
parsing is `Except PErr`.  The generic schema-interpretation engine
(`src/jparser.js`) is not part of the given sources, so its primitives are
modelled from the specification's interface contract (spec section 6); every
GIF-specific definition is transcribed from `gif.node.js`.
-/

deriving instance DecidableEq for Except

namespace Gif

/-- Errors raised during a parse.  The source throws strings; here each throw
site gets a structured constructor carrying the same data (names, expected and
actual values, offsets).  The hex formatting of the source's messages is
presentation only and is not modelled.  `outOfFuel` is a modelling artifact:
the source's unbounded `while (true)` block-sequencer loop is modelled with
explicit fuel, and `outOfFuel` marks fuel exhaustion (for terminating inputs a
sufficiently large fuel never produces it). -/
inductive PErr where
  /-- A read or skip extended past the buffer end (spec sections 6 and 7). -/
  | truncation (offset : Nat) : PErr
  /-- `FixedByte` mismatch: carries name, expected, actual, reported offset. -/
  | fixedByte (name : String) (expected actual : Nat) (offset : Nat) : PErr
  /-- `FixedByteArray` mismatch: carries expected, actual, reported offset. -/
  | fixedByteArray (expected actual : List Nat) (offset : Nat) : PErr
  /-- `FixedString` mismatch: carries name, expected, actual, reported offset
  (strings are modelled as their byte lists). -/
  | fixedString (name : String) (expected actual : List Nat) (offset : Nat) : PErr
  /-- `throw 'Expect: Graphic-Rendering Block'` in the `DataBlocks` sequencer. -/
  | expectGraphicRenderingBlock : PErr
  /-- Modelling artifact: fuel exhaustion of the fuelled block-sequencer loop. -/
  | outOfFuel : PErr
deriving DecidableEq, Repr

/-- A parser: given the immutable byte buffer and the current cursor position,
either fail or return a value together with the new position. -/
def PM (α : Type) : Type := List Nat → Nat → Except PErr (α × Nat)

/-- Sequencing of parsers (the engine threads the cursor through consecutive
field reads). -/
def PM.bind {α β : Type} (m : PM α) (f : α → PM β) : PM β := fun buf pos =>
  match m buf pos with
  | .error e => .error e
  | .ok (a, p1) => f a buf p1

instance : Monad PM where
  pure a := fun _ pos => .ok (a, pos)
  bind := PM.bind

theorem PM.bind_eq {α β : Type} (m : PM α) (f : α → PM β) :
    m >>= f = PM.bind m f := rfl

theorem PM.pure_eq {α : Type} (a : α) :
    (pure a : PM α) = fun _ pos => .ok (a, pos) := rfl

theorem PM.bind_ok_iff {α β : Type} (m : PM α) (f : α → PM β) (buf : List Nat)
    (pos : Nat) (b : β) (p2 : Nat) :
    PM.bind m f buf pos = .ok (b, p2) ↔
      ∃ a p1, m buf pos = .ok (a, p1) ∧ f a buf p1 = .ok (b, p2) := by
  unfold PM.bind
  cases h : m buf pos with
  | error e => simp [h]
  | ok v =>
    constructor
    · intro hf
      exact ⟨v.1, v.2, by simp, hf⟩
    · rintro ⟨a, p1, ha, hf⟩
      cases ha
      exact hf

/-- Modelled from the spec: the Cursor Engine's `position()` query
(spec section 6); `jparser.js` is not among the given sources. -/
def tell : PM Nat := fun _ pos => .ok (pos, pos)

/-- Modelled from the spec: the Cursor Engine's 8-bit unsigned read
(spec section 6); reading past the end of the buffer is a truncation error. -/
def readByte : PM Nat := fun buf pos =>
  match buf[pos]? with
  | some b => .ok (b, pos + 1)
  | none => .error (.truncation pos)

/-- Modelled from the spec: a fixed-length byte read (the engine's
fixed-length string / byte-array primitive, spec section 6).  Strings are kept
as their byte lists. -/
def readBytes : Nat → PM (List Nat)
  | 0 => pure []
  | n + 1 => do
    let b ← readByte
    let bs ← readBytes n
    pure (b :: bs)

/-- Modelled from the spec: 16-bit unsigned little-endian read
(spec section 6: all multi-byte integers little-endian). -/
def readUint16 : PM Nat := do
  let b0 ← readByte
  let b1 ← readByte
  pure (b0 + 256 * b1)

/-- Modelled from the spec: 32-bit unsigned little-endian read. -/
def readUint32 : PM Nat := do
  let b0 ← readByte
  let b1 ← readByte
  let b2 ← readByte
  let b3 ← readByte
  pure (b0 + 256 * b1 + 65536 * b2 + 16777216 * b3)

/-- Modelled from the spec: the Cursor Engine's `skip(count)` (spec section 6);
a skip extending past the buffer end is a truncation error (spec section 7). -/
def skip (n : Nat) : PM Unit := fun buf pos =>
  if pos + n ≤ buf.length then .ok ((), pos + n) else .error (.truncation pos)

/-- Modelled from the spec: the engine's bounded-array combinator
`['array', type, count]` (spec section 6). -/
def parseArray {α : Type} (p : PM α) : Nat → PM (List α)
  | 0 => pure []
  | n + 1 => do
    let a ← p
    let as ← parseArray p n
    pure (a :: as)

/-- `FixedByte` of `gif.node.js`: read one byte and compare with the expected
value; on mismatch throw with expected, actual, and `tell() - 1`.  The source
returns either the raw number or a hex string depending on its `format`
argument; both denote the same byte, so the model always returns the number. -/
def FixedByte (expectValue : Nat) (name : String) : PM Nat := fun buf pos =>
  match readByte buf pos with
  | .error e => .error e
  | .ok (value, p1) =>
    if value = expectValue then .ok (value, p1)
    else .error (.fixedByte name expectValue value (p1 - 1))

/-- `FixedByteArray` of `gif.node.js`: read `expectBytes.length` bytes and
compare (the source checks the length and then each element, which for the
exact-length array read is list equality); on mismatch throw with expected,
actual, and `tell() - 1`; on success return the canonical expected bytes. -/
def FixedByteArray (expectBytes : List Nat) : PM (List Nat) := fun buf pos =>
  match parseArray readByte expectBytes.length buf pos with
  | .error e => .error e
  | .ok (bytes, p1) =>
    if bytes = expectBytes then .ok (expectBytes, p1)
    else .error (.fixedByteArray expectBytes bytes (p1 - 1))

/-- `FixedString` of `gif.node.js`: read a string of the expected length and
compare; on mismatch throw with expected, actual, and `tell() - 1`. -/
def FixedString (expectValue : List Nat) (name : String) : PM (List Nat) :=
  fun buf pos =>
  match readBytes expectValue.length buf pos with
  | .error e => .error e
  | .ok (value, p1) =>
    if value = expectValue then .ok (value, p1)
    else .error (.fixedString name expectValue value (p1 - 1))

/-- `TRY` of `gif.node.js`: record the position, attempt the parse; on any
thrown error seek back to the recorded position and return nothing. -/
def TRY {α : Type} (p : PM α) : PM (Option α) := fun buf pos =>
  match p buf pos with
  | .ok (a, p1) => .ok (some a, p1)
  | .error _ => .ok (none, pos)

/-- Modelled from the spec: bitfield unpack (spec section 4.1) — extract a
sub-field of a packed byte by shifting and masking; `lo` is the bit position of
the field's least significant bit, `width` its bit width (fields are laid out
most-significant-bit first). -/
def bitField (byte lo width : Nat) : Nat := (byte >>> lo) % 2 ^ width

/-! ### String constants (ASCII byte lists) used by the schema -/

/-- ASCII bytes of `"GIF"`. -/
def strGIF : List Nat := [0x47, 0x49, 0x46]

/-- ASCII bytes of `"NETSCAPE"`. -/
def strNETSCAPE : List Nat := [0x4E, 0x45, 0x54, 0x53, 0x43, 0x41, 0x50, 0x45]

/-- ASCII bytes of `"ANIMEXTS"`. -/
def strANIMEXTS : List Nat := [0x41, 0x4E, 0x49, 0x4D, 0x45, 0x58, 0x54, 0x53]

/-- ASCII bytes of `"AnimExts"`. -/
def strAnimExts : List Nat := [0x41, 0x6E, 0x69, 0x6D, 0x45, 0x78, 0x74, 0x73]

/-- ASCII bytes of `"2.0"`. -/
def strTwoDotZero : List Nat := [0x32, 0x2E, 0x30]

/-- ASCII bytes of `"1.0"`. -/
def strOneDotZero : List Nat := [0x31, 0x2E, 0x30]

/-! ### Record types of the structural schema

Fields that the source validates against fixed constants (extension
introducers, labels, block terminators, the fixed identifiers of the Netscape
records) are checked by the parsers below but not stored: on success their
value is the canonical expected constant, so storing it carries no
information.  The source's decorative constant fields (`Netscape`, `Name`,
`type`) are likewise determined by the record kind. -/

/-- `Header` record: 3-byte signature and 3-byte version, both read as plain
strings. -/
structure HeaderT where
  Signature : List Nat
  Version : List Nat
deriving DecidableEq, Repr

/-- `LogicalScreenPackedFields` record (bit widths 1,3,1,3, MSB first). -/
structure LogicalScreenPackedFieldsT where
  GlobalColorTableFlag : Nat
  ColorResolution : Nat
  SortFlag : Nat
  SizeOfGlobalColorTable : Nat
deriving DecidableEq, Repr

/-- `LogicalScreenDescriptor` record. -/
structure LogicalScreenDescriptorT where
  width : Nat
  height : Nat
  PackedFields : LogicalScreenPackedFieldsT
  BackgroundColorIndex : Nat
  PixelAspectRatio : Nat
deriving DecidableEq, Repr

/-- `LogicalScreen` result: descriptor plus optional Global Color Table. -/
structure LogicalScreenT where
  Descriptor : LogicalScreenDescriptorT
  GlobalColorTable : Option (List (List Nat))
deriving DecidableEq, Repr

/-- A recorded `Data Sub-block`: the length byte and the offset of the first
payload byte (payload is never copied). -/
structure SubBlock where
  size : Nat
  start : Nat
deriving DecidableEq, Repr

/-- `Graphic Control Packed Fields` record (bit widths 3,3,1,1, MSB first). -/
structure GraphicControlPackedFieldsT where
  Reserved : Nat
  DisposalMethod : Nat
  UserInputFlag : Nat
  TransparentColorFlag : Nat
deriving DecidableEq, Repr

/-- `GraphicControlExtension` record (introducer, label and terminator are
validated constants). -/
structure GraphicControlExtensionT where
  BlockSize : Nat
  PackedFields : GraphicControlPackedFieldsT
  DelayTime : Nat
  TransparentColorIndex : Nat
deriving DecidableEq, Repr

/-- `PlainTextExtension` record. -/
structure PlainTextExtensionT where
  BlockSize : Nat
  TextGridLeftPosition : Nat
  TextGridTopPosition : Nat
  TextGridWidth : Nat
  TextGridHeight : Nat
  CharacterCellWidth : Nat
  CharacterCellHeight : Nat
  TextForegroundColorIndex : Nat
  TextBackgroundColorIndex : Nat
  PlainTextData : List SubBlock
deriving DecidableEq, Repr

/-- `CommentExtension` record. -/
structure CommentExtensionT where
  CommentData : List SubBlock
deriving DecidableEq, Repr

/-- Generic `ApplicationExtension` record. -/
structure ApplicationExtensionT where
  BlockSize : Nat
  ApplicationIdentifier : List Nat
  AuthenticationCode : List Nat
  ApplicationData : List SubBlock
deriving DecidableEq, Repr

/-- `Netscape Looping Sub Block` record: the fixed size byte 0x03 and ID byte
0x01 are validated; `start` is the cursor position after the size byte;
`LoopCount` is little-endian 16-bit. -/
structure NetscapeLoopingSubBlockT where
  start : Nat
  LoopCount : Nat
deriving DecidableEq, Repr

/-- `Netscape Buffering Sub Block` record: fixed size byte 0x05 and ID byte
0x02 validated; `BufferSize` is little-endian 32-bit. -/
structure NetscapeBufferingSubBlockT where
  start : Nat
  BufferSize : Nat
deriving DecidableEq, Repr

/-- `ImagePackedFields` record (bit widths 1,1,1,2,3, MSB first). -/
structure ImagePackedFieldsT where
  LocalColorTableFlag : Nat
  InterlaceFlag : Nat
  SortFlag : Nat
  Reserved : Nat
  SizeOfLocalColorTable : Nat
deriving DecidableEq, Repr

/-- `ImageDescriptor` record (the separator byte is read unvalidated). -/
structure ImageDescriptorT where
  Separator : Nat
  LeftPosition : Nat
  TopPosition : Nat
  Width : Nat
  Height : Nat
  PackedFields : ImagePackedFieldsT
deriving DecidableEq, Repr

/-- `Table Based Image Data` record (the block terminator is validated). -/
structure TableBasedImageDataT where
  LZWMinimumCodeSize : Nat
  DataSubBlocks : List SubBlock
deriving DecidableEq, Repr

/-- `TableBasedImage` result. -/
structure TableBasedImageT where
  ImageDescriptor : ImageDescriptorT
  LocalColorTable : Option (List (List Nat))
  ImageData : TableBasedImageDataT
deriving DecidableEq, Repr

/-- Which concrete record a parsed Application Extension block carries: the
generic record kept as fallback, or one of the stricter speculative vendor
layouts.  (In the source the AnimExts record's decorative `Netscape`/`Name`
fields coincide with the Netscape Looping ones; the variants are distinguished
here by the parser that produced them.) -/
inductive AppExtensionBlock where
  | generic (e : ApplicationExtensionT) : AppExtensionBlock
  | netscapeLooping (subs : List NetscapeLoopingSubBlockT) : AppExtensionBlock
  | netscapeBuffering (subs : List NetscapeBufferingSubBlockT) : AppExtensionBlock
  | animExtsLooping (subs : List NetscapeLoopingSubBlockT) : AppExtensionBlock
deriving DecidableEq, Repr

/-- The Graphic-Rendering Block alternatives. -/
inductive RenderingBlock where
  | image (i : TableBasedImageT) : RenderingBlock
  | plainText (p : PlainTextExtensionT) : RenderingBlock
deriving DecidableEq, Repr

/-- One element of the `DataBlocks` output list, mirroring the objects pushed
by the source's sequencer loop. -/
inductive Block where
  /-- Table-Based Image met bare (no control extension); carries its 1-based
  graphic-block index. -/
  | graphicImage (GraphicBlockIndex : Nat) (img : TableBasedImageT) : Block
  /-- Graphic Control Extension paired with its rendering block. -/
  | graphicWithControl (GraphicBlockIndex : Nat)
      (gce : GraphicControlExtensionT) (r : RenderingBlock) : Block
  /-- Plain Text Extension met bare (no control extension). -/
  | graphicPlainText (GraphicBlockIndex : Nat) (pte : PlainTextExtensionT) : Block
  /-- Comment Extension special-purpose block. -/
  | comment (c : CommentExtensionT) : Block
  /-- Application Extension special-purpose block. -/
  | application (a : AppExtensionBlock) : Block
deriving DecidableEq, Repr

/-- The `'GIF Data Stream'` root record (the trailer byte 0x3B is validated). -/
structure GIFDataStreamT where
  Header : HeaderT
  LogicalScreen : LogicalScreenT
  DataBlocks : List Block
deriving DecidableEq, Repr

/-! ### Record parsers, transcribed field-by-field from `gif.node.js` -/

/-- `rgb: ['array', 'uint8', 3]`. -/
def rgb : PM (List Nat) := parseArray readByte 3

/-- `Header`: `Signature: ['string', 3]`, `Version: ['string', 3]` — both are
plain string reads, neither is compared against anything. -/
def parseHeader : PM HeaderT := do
  let s ← readBytes 3
  let v ← readBytes 3
  pure ⟨s, v⟩

/-- `LogicalScreenPackedFields` (widths 1,3,1,3 from the MSB). -/
def parseLogicalScreenPackedFields : PM LogicalScreenPackedFieldsT := do
  let b ← readByte
  pure ⟨bitField b 7 1, bitField b 4 3, bitField b 3 1, bitField b 0 3⟩

/-- `LogicalScreenDescriptor`. -/
def parseLogicalScreenDescriptor : PM LogicalScreenDescriptorT := do
  let w ← readUint16
  let h ← readUint16
  let pf ← parseLogicalScreenPackedFields
  let bg ← readByte
  let ar ← readByte
  pure ⟨w, h, pf, bg, ar⟩

/-- `ColorTable(ColorTableFlag, SizeOfColorTable)`: if the flag is truthy,
read an array of `1 <<< (SizeOfColorTable + 1)` rgb triples, else return null
without moving the cursor. -/
def ColorTable (ColorTableFlag SizeOfColorTable : Nat) :
    PM (Option (List (List Nat))) :=
  if ColorTableFlag ≠ 0 then do
    let t ← parseArray rgb (2 ^ (SizeOfColorTable + 1))
    pure (some t)
  else pure none

/-- `LogicalScreen`: descriptor, then the conditional Global Color Table. -/
def parseLogicalScreen : PM LogicalScreenT := do
  let d ← parseLogicalScreenDescriptor
  let t ← ColorTable d.PackedFields.GlobalColorTableFlag
      d.PackedFields.SizeOfGlobalColorTable
  pure ⟨d, t⟩

/-- `'Data Sub-block'`: read the size byte; a zero size seeks back to before
the size byte and returns nothing (the Block Terminator is left unconsumed);
otherwise record `(size, start = tell())` and skip `size` payload bytes. -/
def dataSubBlock : PM (Option SubBlock) := fun buf pos =>
  match readByte buf pos with
  | .error e => .error e
  | .ok (size, p1) =>
    if size = 0 then .ok (none, pos)
    else
      match skip size buf p1 with
      | .error e => .error e
      | .ok (_, p2) => .ok (some ⟨size, p1⟩, p2)

theorem dataSubBlock_ok_some (buf : List Nat) (pos : Nat) (b : SubBlock)
    (p1 : Nat) (h : dataSubBlock buf pos = .ok (some b, p1)) :
    b.start = pos + 1 ∧ 0 < b.size ∧ p1 = pos + 1 + b.size ∧
      p1 ≤ buf.length ∧ buf[pos]? = some b.size := by
  unfold dataSubBlock readByte skip at h
  cases hb : buf[pos]? with
  | none => simp [hb] at h
  | some sz =>
    simp only [hb] at h
    by_cases hz : sz = 0
    · simp [hz] at h
    · simp only [hz, if_false] at h
      by_cases hle : pos + 1 + sz ≤ buf.length
      · simp only [hle, if_true, Except.ok.injEq, Prod.mk.injEq,
          Option.some.injEq] at h
        obtain ⟨hb', hp'⟩ := h
        subst hb'
        subst hp'
        exact ⟨rfl, Nat.pos_of_ne_zero hz, rfl, by omega, rfl⟩
      · simp [hle] at h

/-- Truncation at or past the buffer end: the size-byte read fails. -/
theorem dataSubBlock_at_end (buf : List Nat) (pos : Nat)
    (h : buf.length ≤ pos) : dataSubBlock buf pos = .error (.truncation pos) := by
  unfold dataSubBlock readByte
  rw [List.getElem?_eq_none h]

/-- Fuelled worker for `'Data Sub-block Array'`.  The source loops until
`'Data Sub-block'` returns nothing; each continuing iteration consumes at
least two bytes and never passes the buffer end, so the fuel `buf.length -
pos` given by `dataSubBlockArray` below is always sufficient and the zero-fuel
arm is only ever reached with the cursor at or past the buffer end, where it
returns exactly the truncation error the size-byte read would raise
(`dsbaGo_fuel_irrelevant` and `dataSubBlockArray_unfold` make this precise). -/
def dsbaGo (buf : List Nat) : Nat → Nat → Except PErr (List SubBlock × Nat)
  | 0, pos => .error (.truncation pos)
  | fuel + 1, pos =>
    match dataSubBlock buf pos with
    | .error e => .error e
    | .ok (none, p1) => .ok ([], p1)
    | .ok (some b, p1) =>
      match dsbaGo buf fuel p1 with
      | .error e => .error e
      | .ok (bs, p2) => .ok (b :: bs, p2)

theorem dsbaGo_fuel_irrelevant (buf : List Nat) :
    ∀ f1 f2 pos, buf.length - pos ≤ f1 → buf.length - pos ≤ f2 →
      dsbaGo buf f1 pos = dsbaGo buf f2 pos := by
  intro f1
  induction f1 with
  | zero =>
    intro f2 pos h1 h2
    have hend : buf.length ≤ pos := by omega
    cases f2 with
    | zero => rfl
    | succ k => simp [dsbaGo, dataSubBlock_at_end buf pos hend]
  | succ k ih =>
    intro f2 pos h1 h2
    cases f2 with
    | zero =>
      have hend : buf.length ≤ pos := by omega
      simp [dsbaGo, dataSubBlock_at_end buf pos hend]
    | succ m =>
      show dsbaGo buf (k + 1) pos = dsbaGo buf (m + 1) pos
      cases h : dataSubBlock buf pos with
      | error e => simp [dsbaGo, h]
      | ok v =>
        obtain ⟨ob, p1⟩ := v
        cases ob with
        | none => simp [dsbaGo, h]
        | some b =>
          obtain ⟨_, hsz, hp1, hle, _⟩ := dataSubBlock_ok_some buf pos b p1 h
          simp only [dsbaGo, h]
          rw [ih m p1 (by omega) (by omega)]

/-- `'Data Sub-block Array'`: loop `'Data Sub-block'` until it returns
nothing, collecting the recorded sub-blocks.  The fuel `buf.length - pos` is a
termination bound, invisible in the result (see `dataSubBlockArray_unfold`). -/
def dataSubBlockArray : PM (List SubBlock) := fun buf pos =>
  dsbaGo buf (buf.length - pos) pos

/-- The true recurrence of the sub-block loop: the fuel in
`dataSubBlockArray` never influences the outcome. -/
theorem dataSubBlockArray_unfold (buf : List Nat) (pos : Nat) :
    dataSubBlockArray buf pos =
      match dataSubBlock buf pos with
      | .error e => .error e
      | .ok (none, p1) => .ok ([], p1)
      | .ok (some b, p1) =>
        match dataSubBlockArray buf p1 with
        | .error e => .error e
        | .ok (bs, p2) => .ok (b :: bs, p2) := by
  unfold dataSubBlockArray
  cases hl : buf.length - pos with
  | zero =>
    have hend : buf.length ≤ pos := by omega
    simp [dsbaGo, dataSubBlock_at_end buf pos hend]
  | succ k =>
    show dsbaGo buf (k + 1) pos = _
    cases h : dataSubBlock buf pos with
    | error e => simp [dsbaGo, h]
    | ok v =>
      obtain ⟨ob, p1⟩ := v
      cases ob with
      | none => simp [dsbaGo, h]
      | some b =>
        obtain ⟨_, hsz, hp1, hle, _⟩ := dataSubBlock_ok_some buf pos b p1 h
        simp only [dsbaGo, h, dataSubBlockArray]
        rw [dsbaGo_fuel_irrelevant buf k (buf.length - p1) p1 (by omega) (by omega)]

/-- `GraphicControlExtension`: introducer 0x21 and label 0xF9 validated, then
Block Size (plain byte, unvalidated), packed fields, delay, transparent color
index, and the 0x00 terminator. -/
def parseGraphicControlExtension : PM GraphicControlExtensionT := do
  let _ ← FixedByte 0x21 "Extension Introducer"
  let _ ← FixedByte 0xF9 "Graphic Control Label"
  let bs ← readByte
  let b ← readByte
  let dt ← readUint16
  let tci ← readByte
  let _ ← FixedByte 0x00 "Block Terminator"
  pure ⟨bs, ⟨bitField b 5 3, bitField b 2 3, bitField b 1 1, bitField b 0 1⟩, dt, tci⟩

/-- `PlainTextExtension`: introducer 0x21 and label 0x01 validated, Block Size
(plain byte, unvalidated), the grid and cell fields, the sub-block chain, and
the 0x00 terminator. -/
def parsePlainTextExtension : PM PlainTextExtensionT := do
  let _ ← FixedByte 0x21 "Extension Introducer"
  let _ ← FixedByte 0x01 "Plain Text Label"
  let bs ← readByte
  let gl ← readUint16
  let gt ← readUint16
  let gw ← readUint16
  let gh ← readUint16
  let cw ← readByte
  let ch ← readByte
  let fg ← readByte
  let bg ← readByte
  let dat ← dataSubBlockArray
  let _ ← FixedByte 0x00 "Block Terminator"
  pure ⟨bs, gl, gt, gw, gh, cw, ch, fg, bg, dat⟩

/-- `CommentExtension`: introducer 0x21 and label 0xFE validated, the comment
sub-block chain, and the 0x00 terminator. -/
def parseCommentExtension : PM CommentExtensionT := do
  let _ ← FixedByte 0x21 "Extension Introducer"
  let _ ← FixedByte 0xFE "Comment Label"
  let dat ← dataSubBlockArray
  let _ ← FixedByte 0x00 "Block Terminator"
  pure ⟨dat⟩

/-- Generic `ApplicationExtension`: introducer 0x21 and label 0xFF validated,
Block Size (plain byte, unvalidated), 8-byte identifier string, 3-byte
authentication code, the data sub-block chain, and the 0x00 terminator. -/
def parseApplicationExtension : PM ApplicationExtensionT := do
  let _ ← FixedByte 0x21 "Extension Introducer"
  let _ ← FixedByte 0xFF "Extension Label"
  let bs ← readByte
  let ident ← readBytes 8
  let auth ← parseArray readByte 3
  let dat ← dataSubBlockArray
  let _ ← FixedByte 0x00 "Block Terminator"
  pure ⟨bs, ident, auth, dat⟩

/-- `'Netscape Looping Sub Block'`: fixed size byte 0x03, `start = tell()`,
fixed ID byte 0x01, little-endian 16-bit loop count. -/
def parseNetscapeLoopingSubBlock : PM NetscapeLoopingSubBlockT := do
  let _ ← FixedByte 0x03 "Fixed Byte"
  let start ← tell
  let _ ← FixedByte 0x01 "Fixed Byte"
  let lc ← readUint16
  pure ⟨start, lc⟩

/-- `'Netscape Buffering Sub Block'`: fixed size byte 0x05, `start = tell()`,
fixed ID byte 0x02, little-endian 32-bit buffer size. -/
def parseNetscapeBufferingSubBlock : PM NetscapeBufferingSubBlockT := do
  let _ ← FixedByte 0x05 "Fixed Byte"
  let start ← tell
  let _ ← FixedByte 0x02 "Fixed Byte"
  let bsz ← readUint32
  pure ⟨start, bsz⟩

/-- `'Netscape Looping Application Extension'`: strict layout — introducer
0x21, label 0xFF, fixed block size 0x0B (the source names this check
`'Extension Label'` as well), fixed identifier `"NETSCAPE"`, fixed
authentication `"2.0"`, exactly one looping sub-block, terminator 0x00. -/
def parseNetscapeLoopingExtension : PM (List NetscapeLoopingSubBlockT) := do
  let _ ← FixedByte 0x21 "Extension Introducer"
  let _ ← FixedByte 0xFF "Extension Label"
  let _ ← FixedByte 0x0B "Extension Label"
  let _ ← FixedString strNETSCAPE "Fixed String"
  let _ ← FixedString strTwoDotZero "Fixed String"
  let subs ← parseArray parseNetscapeLoopingSubBlock 1
  let _ ← FixedByte 0x00 "Block Terminator"
  pure subs

/-- `'Netscape Buffering Application Extension'`: like the looping layout but
with one buffering sub-block. -/
def parseNetscapeBufferingExtension : PM (List NetscapeBufferingSubBlockT) := do
  let _ ← FixedByte 0x21 "Extension Introducer"
  let _ ← FixedByte 0xFF "Extension Label"
  let _ ← FixedByte 0x0B "Extension Label"
  let _ ← FixedString strNETSCAPE "Fixed String"
  let _ ← FixedString strTwoDotZero "Fixed String"
  let subs ← parseArray parseNetscapeBufferingSubBlock 1
  let _ ← FixedByte 0x00 "Block Terminator"
  pure subs

/-- `'AnimExts Looping Application Extension'`: identical in shape to the
Netscape Looping layout, but with fixed identifier `"ANIMEXTS"` and fixed
authentication `"1.0"`. -/
def parseAnimExtsLoopingExtension : PM (List NetscapeLoopingSubBlockT) := do
  let _ ← FixedByte 0x21 "Extension Introducer"
  let _ ← FixedByte 0xFF "Extension Label"
  let _ ← FixedByte 0x0B "Extension Label"
  let _ ← FixedString strANIMEXTS "Fixed String"
  let _ ← FixedString strOneDotZero "Fixed String"
  let subs ← parseArray parseNetscapeLoopingSubBlock 1
  let _ ← FixedByte 0x00 "Block Terminator"
  pure subs

/-- `ImagePackedFields` (widths 1,1,1,2,3 from the MSB). -/
def parseImagePackedFields : PM ImagePackedFieldsT := do
  let b ← readByte
  pure ⟨bitField b 7 1, bitField b 6 1, bitField b 5 1, bitField b 3 2,
    bitField b 0 3⟩

/-- `ImageDescriptor` (the separator byte is read as a plain byte). -/
def parseImageDescriptor : PM ImageDescriptorT := do
  let sep ← readByte
  let l ← readUint16
  let t ← readUint16
  let w ← readUint16
  let h ← readUint16
  let pf ← parseImagePackedFields
  pure ⟨sep, l, t, w, h, pf⟩

/-- `'Table Based Image Data'`: LZW minimum code size byte, sub-block chain,
and the 0x00 terminator. -/
def parseTableBasedImageData : PM TableBasedImageDataT := do
  let lzw ← readByte
  let subs ← dataSubBlockArray
  let _ ← FixedByte 0x00 "Block Terminator"
  pure ⟨lzw, subs⟩

/-- `TableBasedImage`: image descriptor, conditional Local Color Table driven
by the descriptor's packed fields, then the image data. -/
def parseTableBasedImage : PM TableBasedImageT := do
  let d ← parseImageDescriptor
  let lct ← ColorTable d.PackedFields.LocalColorTableFlag
      d.PackedFields.SizeOfLocalColorTable
  let dat ← parseTableBasedImageData
  pure ⟨d, lct, dat⟩

/-! ### The Block Sequencer (`DataBlocks`)

One iteration of the source's `while (true)` loop is `parseOneBlock`.  The
source's `this.tell()` / `this.seek(before)` bookkeeping is rendered by
explicit positions: after the lookahead reads, every committed record parse
restarts from the saved iteration start `pos` (the source seeks back to
`before` before dispatching), so each case below parses from `pos`.  The
result is `none` when the loop `break`s (non-extension introducer other than
an Image Descriptor, or an unrecognized extension label), and `some (block,
newGraphicBlockIndex)` when a block is pushed. -/

/-- One iteration of the `DataBlocks` loop, with the running
`GraphicBlockIndex` threaded through. -/
def parseOneBlock (gbi : Nat) : PM (Option (Block × Nat)) := fun buf pos =>
  match readByte buf pos with
  | .error e => .error e
  | .ok (introducer, p1) =>
    if introducer = 0x2C then
      -- Table-Based Image: seek(before), count it, parse from the introducer.
      match parseTableBasedImage buf pos with
      | .error e => .error e
      | .ok (img, p2) => .ok (some (.graphicImage (gbi + 1) img, gbi + 1), p2)
    else if introducer ≠ 0x21 then
      -- Not an extension: seek(before) and break.
      .ok (none, pos)
    else
      -- Extension: read the label byte, then seek(before) in every case.
      match readByte buf p1 with
      | .error e => .error e
      | .ok (extLabel, _) =>
        if extLabel = 0xFE then
          -- CommentExtension
          match parseCommentExtension buf pos with
          | .error e => .error e
          | .ok (c, p2) => .ok (some (.comment c, gbi), p2)
        else if extLabel = 0xFF then
          -- ApplicationExtension: commit the generic parse, then, for the
          -- recognized vendor identifiers, seek(before) and speculate.
          match parseApplicationExtension buf pos with
          | .error e => .error e
          | .ok (a, p2) =>
            if a.ApplicationIdentifier = strNETSCAPE then
              match TRY parseNetscapeLoopingExtension buf pos with
              | .error e => .error e
              | .ok (some nl, p3) =>
                .ok (some (.application (.netscapeLooping nl), gbi), p3)
              | .ok (none, p3) =>
                match TRY parseNetscapeBufferingExtension buf p3 with
                | .error e => .error e
                | .ok (some nb, p4) =>
                  .ok (some (.application (.netscapeBuffering nb), gbi), p4)
                | .ok (none, p4) =>
                  .ok (some (.application (.generic a), gbi), p4)
            else if a.ApplicationIdentifier = strAnimExts then
              match TRY parseAnimExtsLoopingExtension buf pos with
              | .error e => .error e
              | .ok (some ax, p3) =>
                .ok (some (.application (.animExtsLooping ax), gbi), p3)
              | .ok (none, p3) =>
                .ok (some (.application (.generic a), gbi), p3)
            else
              .ok (some (.application (.generic a), gbi), p2)
        else if extLabel = 0xF9 then
          -- GraphicControlExtension, then the peeked rendering block.
          match parseGraphicControlExtension buf pos with
          | .error e => .error e
          | .ok (gce, p2) =>
            match readByte buf p2 with
            | .error e => .error e
            | .ok (label2, _) =>
              if label2 = 0x2C then
                match parseTableBasedImage buf p2 with
                | .error e => .error e
                | .ok (img, p3) =>
                  .ok (some (.graphicWithControl (gbi + 1) gce (.image img),
                    gbi + 1), p3)
              else if label2 = 0x01 then
                match parsePlainTextExtension buf p2 with
                | .error e => .error e
                | .ok (pte, p3) =>
                  .ok (some (.graphicWithControl (gbi + 1) gce
                    (.plainText pte), gbi + 1), p3)
              else .error .expectGraphicRenderingBlock
        else if extLabel = 0x01 then
          -- PlainTextExtension without a preceding control extension.
          match parsePlainTextExtension buf pos with
          | .error e => .error e
          | .ok (pte, p2) =>
            .ok (some (.graphicPlainText (gbi + 1) pte, gbi + 1), p2)
        else
          -- Unrecognized extension label: seek(before) and break.
          .ok (none, pos)

/-- The `DataBlocks` loop, bounded by explicit fuel.  The source's loop has no
bound; `.error .outOfFuel` marks that `fuel` iterations did not reach a `break`
(for inputs on which the source terminates, any sufficiently large fuel gives
the loop's result, and a result other than `.error .outOfFuel` is
fuel-independent by `dataBlocksF_mono`). -/
def dataBlocksF (buf : List Nat) : Nat → Nat → Nat → Except PErr (List Block × Nat)
  | 0, _, _ => .error .outOfFuel
  | fuel + 1, gbi, pos =>
    match parseOneBlock gbi buf pos with
    | .error e => .error e
    | .ok (none, p1) => .ok ([], p1)
    | .ok (some (b, gbi2), p1) =>
      match dataBlocksF buf fuel gbi2 p1 with
      | .error e => .error e
      | .ok (bs, p2) => .ok (b :: bs, p2)

/-- A `dataBlocksF` outcome other than fuel exhaustion is stable under adding
fuel. -/
theorem dataBlocksF_mono (buf : List Nat) :
    ∀ fuel fuel2 gbi pos, fuel ≤ fuel2 →
      dataBlocksF buf fuel gbi pos ≠ .error .outOfFuel →
      dataBlocksF buf fuel2 gbi pos = dataBlocksF buf fuel gbi pos := by
  intro fuel
  induction fuel with
  | zero =>
    intro fuel2 gbi pos _ hne
    simp [dataBlocksF] at hne
  | succ k ih =>
    intro fuel2 gbi pos hle hne
    obtain ⟨m, rfl⟩ : ∃ m, fuel2 = m + 1 := ⟨fuel2 - 1, by omega⟩
    simp only [dataBlocksF] at hne ⊢
    cases h : parseOneBlock gbi buf pos with
    | error e => simp [h]
    | ok v =>
      obtain ⟨ob, p1⟩ := v
      cases ob with
      | none => simp [h]
      | some bg =>
        obtain ⟨b, gbi2⟩ := bg
        simp only [h] at hne ⊢
        have hne2 : dataBlocksF buf k gbi2 p1 ≠ .error .outOfFuel := by
          intro hcon
          rw [hcon] at hne
          exact hne rfl
        rw [ih m gbi2 p1 (by omega) hne2]

/-- `'GIF Data Stream'`: Header, Logical Screen, the block-sequencer output,
and the validated 0x3B Trailer; `fuel` bounds the sequencer loop as in
`dataBlocksF`. -/
def parseGIFDataStreamF (fuel : Nat) : PM GIFDataStreamT := fun buf pos =>
  match parseHeader buf pos with
  | .error e => .error e
  | .ok (h, p1) =>
    match parseLogicalScreen buf p1 with
    | .error e => .error e
    | .ok (ls, p2) =>
      match dataBlocksF buf fuel 0 p2 with
      | .error e => .error e
      | .ok (bs, p3) =>
        match FixedByte 0x3B "Trailer" buf p3 with
        | .error e => .error e
        | .ok (_, p4) => .ok (⟨h, ls, bs⟩, p4)

/-! ### General lemmas about the primitives -/

theorem readByte_ok_iff (buf : List Nat) (pos b p1 : Nat) :
    readByte buf pos = .ok (b, p1) ↔ buf[pos]? = some b ∧ p1 = pos + 1 := by
  unfold readByte
  cases h : buf[pos]? with
  | none => simp
  | some v =>
    constructor
    · intro hok
      injection hok with hok
      injection hok with h1 h2
      exact ⟨h1 ▸ rfl, h2.symm⟩
    · rintro ⟨hsome, rfl⟩
      injection hsome with hsome
      rw [hsome]

theorem FixedByte_ok_iff (e : Nat) (n : String) (buf : List Nat)
    (pos v p1 : Nat) :
    FixedByte e n buf pos = .ok (v, p1) ↔
      buf[pos]? = some e ∧ v = e ∧ p1 = pos + 1 := by
  unfold FixedByte readByte
  cases h : buf[pos]? with
  | none => simp
  | some b =>
    dsimp only
    by_cases hb : b = e
    · subst hb
      rw [if_pos rfl]
      constructor
      · intro hok
        injection hok with hok
        injection hok with h1 h2
        exact ⟨rfl, h1.symm, h2.symm⟩
      · rintro ⟨-, rfl, rfl⟩
        rfl
    · rw [if_neg hb]
      constructor
      · intro hok
        exact absurd hok (by simp)
      · rintro ⟨hsome, rfl, rfl⟩
        injection hsome with hsome
        exact absurd hsome hb

theorem readBytes_eq (buf : List Nat) :
    ∀ n pos, pos + n ≤ buf.length →
      readBytes n buf pos = .ok ((buf.drop pos).take n, pos + n) := by
  intro n
  induction n with
  | zero => intro pos _; rfl
  | succ k ih =>
    intro pos h
    have hp : pos < buf.length := by omega
    show PM.bind readByte _ buf pos = _
    unfold PM.bind
    rw [show readByte buf pos = .ok (buf[pos], pos + 1) from
      (readByte_ok_iff buf pos buf[pos] (pos + 1)).2
        ⟨List.getElem?_eq_getElem hp, rfl⟩]
    show PM.bind (readBytes k) _ buf (pos + 1) = _
    unfold PM.bind
    rw [ih (pos + 1) (by omega)]
    show Except.ok (buf[pos] :: (buf.drop (pos + 1)).take k, pos + 1 + k) = _
    rw [List.drop_eq_getElem_cons hp]
    simp only [List.take_succ_cons, Except.ok.injEq, Prod.mk.injEq, true_and]
    omega

theorem PM.bind_congr {α β : Type} (m : PM α) (f g : α → PM β) (buf : List Nat)
    (pos : Nat) (h : ∀ a p, f a buf p = g a buf p) :
    PM.bind m f buf pos = PM.bind m g buf pos := by
  unfold PM.bind
  cases m buf pos with
  | error e => rfl
  | ok v => exact h v.1 v.2

theorem parseArray_readByte : ∀ n : Nat, parseArray readByte n = readBytes n := by
  intro n
  induction n with
  | zero => rfl
  | succ k ih =>
    unfold parseArray readBytes
    rw [ih]

theorem dataSubBlock_ok_none (buf : List Nat) (pos p1 : Nat)
    (h : dataSubBlock buf pos = .ok (none, p1)) :
    p1 = pos ∧ buf[pos]? = some 0 := by
  unfold dataSubBlock readByte skip at h
  cases hb : buf[pos]? with
  | none => simp [hb] at h
  | some sz =>
    simp only [hb] at h
    by_cases hz : sz = 0
    · subst hz
      simp at h
      exact ⟨by omega, rfl⟩
    · simp only [hz, if_false] at h
      by_cases hle : pos + 1 + sz ≤ buf.length
      · simp [hle] at h
      · simp [hle] at h

/-- Shape of every successful sub-block chain read: the facts of spec
section 8 in the form the code actually establishes (the cursor ends at the
terminator byte, which is left unconsumed). -/
theorem dsbaGo_ok_facts (buf : List Nat) :
    ∀ fuel pos blocks p1, dsbaGo buf fuel pos = .ok (blocks, p1) →
      (∀ b ∈ blocks, pos + 1 ≤ b.start) ∧
      List.Pairwise (fun x y : SubBlock => x.start < y.start) blocks ∧
      p1 = pos + (blocks.map fun b => 1 + b.size).sum ∧
      buf[p1]? = some 0 ∧
      ∀ b ∈ blocks, 0 < b.size ∧ buf[b.start - 1]? = some b.size := by
  intro fuel
  induction fuel with
  | zero =>
    intro pos blocks p1 h
    exact absurd h (by simp [dsbaGo])
  | succ k ih =>
    intro pos blocks p1 h
    simp only [dsbaGo] at h
    split at h
    · exact absurd h (by simp)
    · rename_i q hd
      simp only [Except.ok.injEq, Prod.mk.injEq] at h
      obtain ⟨rfl, rfl⟩ := h
      obtain ⟨rfl, h0⟩ := dataSubBlock_ok_none buf pos q hd
      exact ⟨by simp, by simp, by simp, h0, by simp⟩
    · rename_i b q hd
      obtain ⟨hst, hsz, hq, hle, hbyte⟩ := dataSubBlock_ok_some buf pos b q hd
      split at h
      · exact absurd h (by simp)
      · rename_i bs p2 hr
        simp only [Except.ok.injEq, Prod.mk.injEq] at h
        obtain ⟨rfl, rfl⟩ := h
        obtain ⟨ihlo, ihpw, ihsum, ihterm, ihsz⟩ := ih q bs p2 hr
        refine ⟨?_, ?_, ?_, ihterm, ?_⟩
        · intro x hx
          cases hx with
          | head => omega
          | tail _ hx => have := ihlo x hx; omega
        · refine List.Pairwise.cons ?_ ihpw
          intro x hx
          have := ihlo x hx
          omega
        · simp only [List.map_cons, List.sum_cons]
          omega
        · intro x hx
          cases hx with
          | head =>
            refine ⟨hsz, ?_⟩
            rw [hst]
            simpa using hbyte
          | tail _ hx => exact ihsz x hx

/-- Inversion of a successful generic Application Extension parse: the first
two bytes of the block are the extension introducer 0x21 and label 0xFF. -/
theorem parseApplicationExtension_ok_head (buf : List Nat) (pos : Nat)
    (a : ApplicationExtensionT) (p2 : Nat)
    (h : parseApplicationExtension buf pos = .ok (a, p2)) :
    buf[pos]? = some 0x21 ∧ buf[pos + 1]? = some 0xFF := by
  have h' : PM.bind (FixedByte 0x21 "Extension Introducer")
      (fun _ => PM.bind (FixedByte 0xFF "Extension Label") fun _ => _) buf pos =
      .ok (a, p2) := h
  rw [PM.bind_ok_iff] at h'
  obtain ⟨v1, q1, h1, h'⟩ := h'
  rw [PM.bind_ok_iff] at h'
  obtain ⟨v2, q2, h2, _⟩ := h'
  obtain ⟨hb1, _, rfl⟩ := (FixedByte_ok_iff _ _ _ _ _ _).1 h1
  obtain ⟨hb2, _, _⟩ := (FixedByte_ok_iff _ _ _ _ _ _).1 h2
  exact ⟨hb1, hb2⟩

/-- Inversion of a successful Graphic Control Extension parse: the first two
bytes of the block are the extension introducer 0x21 and label 0xF9. -/
theorem parseGraphicControlExtension_ok_head (buf : List Nat) (pos : Nat)
    (gce : GraphicControlExtensionT) (p2 : Nat)
    (h : parseGraphicControlExtension buf pos = .ok (gce, p2)) :
    buf[pos]? = some 0x21 ∧ buf[pos + 1]? = some 0xF9 := by
  have h' : PM.bind (FixedByte 0x21 "Extension Introducer")
      (fun _ => PM.bind (FixedByte 0xF9 "Graphic Control Label")
        fun _ => _) buf pos = .ok (gce, p2) := h
  rw [PM.bind_ok_iff] at h'
  obtain ⟨v1, q1, h1, h'⟩ := h'
  rw [PM.bind_ok_iff] at h'
  obtain ⟨v2, q2, h2, _⟩ := h'
  obtain ⟨hb1, _, rfl⟩ := (FixedByte_ok_iff _ _ _ _ _ _).1 h1
  obtain ⟨hb2, _, _⟩ := (FixedByte_ok_iff _ _ _ _ _ _).1 h2
  exact ⟨hb1, hb2⟩

/-- Explicit form of a successful rgb-array read: entry `i` is the 3-byte
slice starting at `pos + 3 * i`. -/
theorem parseArray_rgb_eq (buf : List Nat) :
    ∀ n pos, pos + 3 * n ≤ buf.length →
      parseArray rgb n buf pos =
        .ok ((List.range n).map fun i => (buf.drop (pos + 3 * i)).take 3,
          pos + 3 * n) := by
  intro n
  induction n with
  | zero =>
    intro pos _
    simp [parseArray, PM.pure_eq]
  | succ k ih =>
    intro pos h
    show PM.bind rgb _ buf pos = _
    unfold PM.bind
    have hrgb : rgb buf pos = .ok ((buf.drop pos).take 3, pos + 3) := by
      show parseArray readByte 3 buf pos = _
      rw [parseArray_readByte]
      exact readBytes_eq buf 3 pos (by omega)
    rw [hrgb]
    show PM.bind (parseArray rgb k) _ buf (pos + 3) = _
    unfold PM.bind
    rw [ih (pos + 3) (by omega)]
    show Except.ok ((buf.drop pos).take 3 ::
      ((List.range k).map fun i => (buf.drop (pos + 3 + 3 * i)).take 3),
      pos + 3 + 3 * k) = _
    simp only [Except.ok.injEq, Prod.mk.injEq]
    refine ⟨?_, by ring⟩
    rw [List.range_succ_eq_map, List.map_cons, List.map_map]
    simp only [Nat.mul_zero, Nat.add_zero]
    congr 1
    apply List.map_congr_left
    intro i _
    simp only [Function.comp_apply]
    congr 2
    omega

/-! ### Concrete byte streams for the claims -/

/-- A strict Netscape Looping application extension (loop count 0x1234,
little-endian) followed by the trailer byte 0x3B. -/
def netscapeGoodBuf : List Nat :=
  [0x21, 0xFF, 0x0B] ++ strNETSCAPE ++ strTwoDotZero ++
    [0x03, 0x01, 0x34, 0x12, 0x00, 0x3B]

/-- The same stream with block size 0x0C instead of 0x0B: the generic
Application Extension parse succeeds, both strict Netscape layouts fail. -/
def netscapeBadBuf : List Nat :=
  [0x21, 0xFF, 0x0C] ++ strNETSCAPE ++ strTwoDotZero ++
    [0x03, 0x01, 0x34, 0x12, 0x00, 0x3B]

/-- A strict Netscape Buffering application extension (buffer size 1)
followed by the trailer byte. -/
def netscapeBufferingBuf : List Nat :=
  [0x21, 0xFF, 0x0B] ++ strNETSCAPE ++ strTwoDotZero ++
    [0x05, 0x02, 0x01, 0x00, 0x00, 0x00, 0x00, 0x3B]

/-- An application extension whose identifier reads `"AnimExts"` (the strict
AnimExts layout demands `"ANIMEXTS"`, so the speculative parse always fails). -/
def animExtsBuf : List Nat :=
  [0x21, 0xFF, 0x0B] ++ strAnimExts ++ strOneDotZero ++
    [0x03, 0x01, 0x34, 0x12, 0x00, 0x3B]

/-- A Graphic Control Extension followed by the byte 0xAB, which is neither an
Image Descriptor (0x2C) nor a Plain Text label (0x01). -/
def gceBadBuf : List Nat := [0x21, 0xF9, 0x04, 0x00, 0x00, 0x00, 0x00, 0x00, 0xAB]

/-- A minimal complete GIF stream whose signature bytes read `"ABC"` instead
of `"GIF"`: header, logical screen descriptor without a global color table, no
data blocks, trailer. -/
def badSigGif : List Nat :=
  [0x41, 0x42, 0x43, 0x38, 0x39, 0x61, 0x02, 0x00, 0x02, 0x00, 0x00, 0x00,
    0x00, 0x3B]

/-- One sequencer iteration on `netscapeBadBuf`: the generic result is kept
but the cursor is left at the block start (position 0), so the loop does not
advance. -/
theorem parseOneBlock_netscapeBadBuf :
    parseOneBlock 0 netscapeBadBuf 0 =
      .ok (some (.application
        (.generic ⟨0x0C, strNETSCAPE, strTwoDotZero, [⟨3, 15⟩]⟩), 0), 0) := by
  decide

/-- One sequencer iteration on `animExtsBuf`: the generic result is kept but
the cursor is left at the block start (position 0), so the loop does not
advance. -/
theorem parseOneBlock_animExtsBuf :
    parseOneBlock 0 animExtsBuf 0 =
      .ok (some (.application
        (.generic ⟨0x0B, strAnimExts, strOneDotZero, [⟨3, 15⟩]⟩), 0), 0) := by
  decide

/-! ### The claims -/

/-- Claim C1.  The strict-layout half holds: on `netscapeGoodBuf` the
sequencer emits the Netscape Looping variant with the exact little-endian
loop count 0x1234 and then terminates at the trailer.  The fallback half is
where the code bug shows: on `netscapeBadBuf` (block size 0x0C) both
speculative attempts fail and the generic result is kept, but the cursor is
left at the block start, so one iteration returns to position 0 and the
sequencer loop never terminates (it exhausts every fuel bound) instead of
emitting the generic block once and moving on. -/
theorem C1_netscape_looping_bug :
    dataBlocksF netscapeGoodBuf 2 0 0 =
      .ok ([.application (.netscapeLooping [⟨15, 0x1234⟩])], 19) ∧
    parseOneBlock 0 netscapeBadBuf 0 =
      .ok (some (.application
        (.generic ⟨0x0C, strNETSCAPE, strTwoDotZero, [⟨3, 15⟩]⟩), 0), 0) ∧
    ∀ fuel, dataBlocksF netscapeBadBuf fuel 0 0 = .error .outOfFuel := by
  refine ⟨by decide, parseOneBlock_netscapeBadBuf, ?_⟩
  intro fuel
  induction fuel with
  | zero => rfl
  | succ k ih => simp only [dataBlocksF, parseOneBlock_netscapeBadBuf, ih]

/-- Claim C2.  The Block Sequencer loop does not terminate on every finite
buffer: on `animExtsBuf` (an application extension whose identifier reads
`"AnimExts"`, whose strict layout necessarily fails since it demands
`"ANIMEXTS"`) every iteration re-parses the same block with the cursor stuck
at position 0, and the loop exhausts every fuel bound. -/
theorem C2_sequencer_nonterminating :
    ∀ fuel, dataBlocksF animExtsBuf fuel 0 0 = .error .outOfFuel := by
  intro fuel
  induction fuel with
  | zero => rfl
  | succ k ih => simp only [dataBlocksF, parseOneBlock_animExtsBuf, ih]

/-- Claim C3, counterexample to the claim as stated.  On the chain
`[0x02, 0x09, 0x09, 0x00]` read from position 0 the recorded sub-block is
`(offset 1, length 2)` and the cursor ends at position 3 — the position OF the
zero terminator, not just past it — whereas the claim demands
`start + sum(1+length_i) + 1 = 4`. -/
theorem C3_cursor_counterexample :
    dataSubBlockArray [0x02, 0x09, 0x09, 0x00] 0 = .ok ([⟨2, 1⟩], 3) ∧
    (3 : Nat) ≠ 0 + (1 + 2) + 1 := ⟨by decide, by decide⟩

/-- Claim C3, amended.  For every successful Sub-block Chain read: the
recorded offsets are strictly increasing, each recorded length is 1..255 and
equals the length byte consumed (the byte just before the recorded offset),
the chain ends exactly at a zero length byte, and the cursor ends AT that
terminator byte — `start + sum(1+length_i)`, without the claim's `+ 1`; the
terminator is consumed separately by the Block Terminator field that follows
the chain in every enclosing record. -/
theorem C3_subblock_chain (buf : List Nat) (pos : Nat) (blocks : List SubBlock)
    (p1 : Nat) (hbytes : ∀ x ∈ buf, x < 256)
    (h : dataSubBlockArray buf pos = .ok (blocks, p1)) :
    List.Pairwise (· < ·) (blocks.map SubBlock.start) ∧
    p1 = pos + (blocks.map fun b => 1 + b.size).sum ∧
    buf[p1]? = some 0 ∧
    ∀ b ∈ blocks, 1 ≤ b.size ∧ b.size ≤ 255 ∧ buf[b.start - 1]? = some b.size := by
  obtain ⟨-, hpw, hsum, hterm, hsz⟩ :=
    dsbaGo_ok_facts buf (buf.length - pos) pos blocks p1 h
  refine ⟨?_, hsum, hterm, ?_⟩
  · rw [List.pairwise_map]
    exact hpw
  · intro b hb
    obtain ⟨h1, h2⟩ := hsz b hb
    have hmem : b.size ∈ buf := List.getElem?_mem h2
    exact ⟨h1, by have := hbytes _ hmem; omega, h2⟩

/-- Witness for C3 at a concrete two-block chain. -/
theorem C3_subblock_chain_witness :
    List.Pairwise (· < ·)
      (([⟨2, 1⟩, ⟨1, 4⟩] : List SubBlock).map SubBlock.start) ∧
    (5 : Nat) = 0 + (([⟨2, 1⟩, ⟨1, 4⟩] : List SubBlock).map
      fun b => 1 + b.size).sum ∧
    ([2, 9, 9, 1, 8, 0, 5] : List Nat)[5]? = some 0 ∧
    ∀ b ∈ ([⟨2, 1⟩, ⟨1, 4⟩] : List SubBlock), 1 ≤ b.size ∧ b.size ≤ 255 ∧
      ([2, 9, 9, 1, 8, 0, 5] : List Nat)[b.start - 1]? = some b.size :=
  C3_subblock_chain [2, 9, 9, 1, 8, 0, 5] 0 [⟨2, 1⟩, ⟨1, 4⟩] 5
    (by decide) (by decide)

/-- Claim C4.  Every speculative Application-extension parse attempt is
atomic in the cursor.  Whenever the committed generic parse of a vendor-
identified block (identifier `"NETSCAPE"` or `"AnimExts"` — the only
identifiers for which the sequencer speculates) succeeds, the dispatch is
exactly: each speculative trial runs from the block start `pos`; on a trial's
failure the cursor is fully restored to `pos` before the next trial
(NETSCAPE's buffering attempt) or before falling back to the already-committed
generic record; on a trial's success, that trial's result is returned with the
trial's final cursor, past the block. -/
theorem C4_speculative_atomicity (buf : List Nat) (pos gbi : Nat)
    (a : ApplicationExtensionT) (p2 : Nat)
    (hA : parseApplicationExtension buf pos = .ok (a, p2))
    (hid : a.ApplicationIdentifier = strNETSCAPE ∨
      a.ApplicationIdentifier = strAnimExts) :
    parseOneBlock gbi buf pos =
      if a.ApplicationIdentifier = strNETSCAPE then
        match parseNetscapeLoopingExtension buf pos with
        | .ok (nl, p3) =>
          .ok (some (.application (.netscapeLooping nl), gbi), p3)
        | .error _ =>
          match parseNetscapeBufferingExtension buf pos with
          | .ok (nb, p4) =>
            .ok (some (.application (.netscapeBuffering nb), gbi), p4)
          | .error _ => .ok (some (.application (.generic a), gbi), pos)
      else
        match parseAnimExtsLoopingExtension buf pos with
        | .ok (ax, p3) =>
          .ok (some (.application (.animExtsLooping ax), gbi), p3)
        | .error _ => .ok (some (.application (.generic a), gbi), pos) := by
  obtain ⟨h21, hFF⟩ := parseApplicationExtension_ok_head buf pos a p2 hA
  rcases hid with hid | hid
  · rw [if_pos hid]
    simp only [parseOneBlock, readByte, h21, hFF, hA, hid]
    norm_num [TRY]
    cases hL : parseNetscapeLoopingExtension buf pos with
    | error e =>
      cases hB : parseNetscapeBufferingExtension buf pos with
      | error e2 => simp [hL, hB]
      | ok v2 =>
        obtain ⟨nb, p4⟩ := v2
        simp [hL, hB]
    | ok v =>
      obtain ⟨nl, p3⟩ := v
      simp [hL]
  · have hne : a.ApplicationIdentifier ≠ strNETSCAPE := by
      rw [hid]
      decide
    rw [if_neg hne]
    simp only [parseOneBlock, readByte, h21, hFF, hA, hid, hne]
    norm_num [TRY, strAnimExts, strNETSCAPE]
    cases hL : parseAnimExtsLoopingExtension buf pos with
    | error e => simp [hL]
    | ok v =>
      obtain ⟨ax, p3⟩ := v
      simp [hL]

/-- Witness for C4, exercising both vendor branches: on
`netscapeBufferingBuf` the looping trial fails, the cursor is restored, the
buffering trial succeeds and its result is returned with the cursor past the
block; on `animExtsBuf` the AnimExts trial fails and the generic record is
kept with the cursor restored to the block start. -/
theorem C4_speculative_atomicity_witness :
    parseOneBlock 0 netscapeBufferingBuf 0 =
      .ok (some (.application (.netscapeBuffering [⟨15, 1⟩]), 0), 21) ∧
    parseOneBlock 0 animExtsBuf 0 =
      .ok (some (.application
        (.generic ⟨0x0B, strAnimExts, strOneDotZero, [⟨3, 15⟩]⟩), 0), 0) := by
  constructor
  · rw [C4_speculative_atomicity netscapeBufferingBuf 0 0
      ⟨0x0B, strNETSCAPE, strTwoDotZero, [⟨5, 15⟩]⟩ 21 (by decide)
      (Or.inl (by decide))]
    decide
  · rw [C4_speculative_atomicity animExtsBuf 0 0
      ⟨0x0B, strAnimExts, strOneDotZero, [⟨3, 15⟩]⟩ 19 (by decide)
      (Or.inr (by decide))]
    decide

/-- Claim C5.  Whenever the committed generic parse of an
AnimExts-identified block succeeds, the sequencer speculatively attempts the
strict AnimExts Looping layout from the block start; if that attempt succeeds
its result is emitted as the AnimExts Looping variant, and on failure the
generic parse result is kept.  (The success branch is in fact vacuous: the
strict layout validates the identifier bytes against `"ANIMEXTS"` while the
branch is taken only when they read `"AnimExts"`; and on failure the cursor
stays at the block start — the non-progress recorded under C1/C2.) -/
theorem C5_animexts_dispatch (buf : List Nat) (pos gbi : Nat)
    (a : ApplicationExtensionT) (p2 : Nat)
    (hA : parseApplicationExtension buf pos = .ok (a, p2))
    (hid : a.ApplicationIdentifier = strAnimExts) :
    parseOneBlock gbi buf pos =
      match parseAnimExtsLoopingExtension buf pos with
      | .ok (ax, p3) => .ok (some (.application (.animExtsLooping ax), gbi), p3)
      | .error _ => .ok (some (.application (.generic a), gbi), pos) := by
  obtain ⟨h21, hFF⟩ := parseApplicationExtension_ok_head buf pos a p2 hA
  have hne : a.ApplicationIdentifier ≠ strNETSCAPE := by
    rw [hid]
    decide
  simp only [parseOneBlock, readByte, h21, hFF, hA, hid, hne]
  norm_num [TRY, strAnimExts, strNETSCAPE]
  cases hL : parseAnimExtsLoopingExtension buf pos with
  | error e => simp [hL]
  | ok v =>
    obtain ⟨ax, p3⟩ := v
    simp [hL]

/-- Witness for C5 on `animExtsBuf`: the strict attempt fails and the generic
record is kept. -/
theorem C5_animexts_dispatch_witness :
    parseOneBlock 0 animExtsBuf 0 =
      .ok (some (.application
        (.generic ⟨0x0B, strAnimExts, strOneDotZero, [⟨3, 15⟩]⟩), 0), 0) := by
  rw [C5_animexts_dispatch animExtsBuf 0 0
    ⟨0x0B, strAnimExts, strOneDotZero, [⟨3, 15⟩]⟩ 19 (by decide) (by decide)]
  decide

/-- Claim C6.  Whenever a Graphic Control Extension parses successfully and
the byte directly following it is neither 0x2C (Image Descriptor) nor 0x01
(Plain Text label), the sequencer raises the expected-Graphic-Rendering-Block
error, and the error is not retried: the whole `DataBlocks` loop returns it
to the caller (for every remaining fuel bound). -/
theorem C6_expect_rendering_block (buf : List Nat) (pos gbi : Nat)
    (gce : GraphicControlExtensionT) (p2 b : Nat)
    (hG : parseGraphicControlExtension buf pos = .ok (gce, p2))
    (hb : buf[p2]? = some b) (h2C : b ≠ 0x2C) (h01 : b ≠ 0x01) :
    parseOneBlock gbi buf pos = .error .expectGraphicRenderingBlock ∧
      ∀ fuel, dataBlocksF buf (fuel + 1) gbi pos =
        .error .expectGraphicRenderingBlock := by
  obtain ⟨h21, hF9⟩ := parseGraphicControlExtension_ok_head buf pos gce p2 hG
  have h1 : parseOneBlock gbi buf pos = .error .expectGraphicRenderingBlock := by
    simp only [parseOneBlock, readByte, h21, hF9, hG, hb]
    norm_num [h2C, h01]
  refine ⟨h1, fun fuel => ?_⟩
  simp [dataBlocksF, h1]

/-- Witness for C6 on `gceBadBuf` (the control extension is followed by
0xAB). -/
theorem C6_expect_rendering_block_witness :
    parseOneBlock 0 gceBadBuf 0 = .error .expectGraphicRenderingBlock ∧
      dataBlocksF gceBadBuf 5 0 0 = .error .expectGraphicRenderingBlock := by
  have h := C6_expect_rendering_block gceBadBuf 0 0 ⟨4, ⟨0, 0, 0, 0⟩, 0, 0⟩ 8
    0xAB (by decide) (by decide) (by decide) (by decide)
  exact ⟨h.1, h.2 4⟩

/-- Claim C7, counterexample to the claim as stated.  The full stream
`badSigGif`, whose first three bytes read `"ABC"`, decodes to a complete valid
tree: the signature is NOT an enforced invariant. -/
theorem C7_signature_counterexample :
    parseGIFDataStreamF 1 badSigGif 0 =
      .ok (⟨⟨[0x41, 0x42, 0x43], [0x38, 0x39, 0x61]⟩,
        ⟨⟨2, 2, ⟨0, 0, 0, 0⟩, 0, 0⟩, none⟩, []⟩, 14) ∧
    ([0x41, 0x42, 0x43] : List Nat) ≠ strGIF := ⟨by decide, by decide⟩

/-- Claim C7, amended.  The Header is a fixed 3-byte signature field followed
by a 3-byte version field, and BOTH are read permissively: whenever six bytes
are available the header parse succeeds, returning exactly those bytes with
no validation of either field. -/
theorem C7_header_permissive (buf : List Nat) (pos : Nat)
    (h : pos + 6 ≤ buf.length) :
    parseHeader buf pos =
      .ok (⟨(buf.drop pos).take 3, (buf.drop (pos + 3)).take 3⟩, pos + 6) := by
  show PM.bind (readBytes 3) _ buf pos = _
  unfold PM.bind
  rw [readBytes_eq buf 3 pos (by omega)]
  show PM.bind (readBytes 3) _ buf (pos + 3) = _
  unfold PM.bind
  rw [readBytes_eq buf 3 (pos + 3) (by omega)]
  show Except.ok (_, pos + 3 + 3) = _
  have h6 : pos + 3 + 3 = pos + 6 := by omega
  rw [h6]

/-- Witness for C7 on the bad-signature stream. -/
theorem C7_header_permissive_witness :
    parseHeader badSigGif 0 =
      .ok (⟨[0x41, 0x42, 0x43], [0x38, 0x39, 0x61]⟩, 6) := by
  have h := C7_header_permissive badSigGif 0 (by decide)
  simpa using h

/-- Claim C8, counterexample to the claim as stated.  `FixedString` with
expectation `"GIF"` (3 bytes) failing at position 0 reports offset 2 — the
offset of the LAST byte of the read — not the offset 0 at which the read
started. -/
theorem C8_offset_counterexample :
    FixedString strGIF "Fixed String" [0x41, 0x42, 0x43] 0 =
      .error (.fixedString "Fixed String" strGIF [0x41, 0x42, 0x43] 2) ∧
    (2 : Nat) ≠ 0 := ⟨by decide, by decide⟩

/-- Claim C8, amended.  Each fixed-value validator reads exactly the width of
its expectation, returns the validated value (resp. canonical tag) with the
cursor advanced by that width on success, and on mismatch reports expected
value, actual value read, and the offset `position after the read - 1`, i.e.
the offset of the last byte of the read — which coincides with the offset at
which the read started only for the one-byte `FixedByte`. -/
theorem C8_validator_contract :
    (∀ e n buf pos, FixedByte e n buf pos =
      match buf[pos]? with
      | none => .error (.truncation pos)
      | some v =>
        if v = e then .ok (v, pos + 1) else .error (.fixedByte n e v pos)) ∧
    (∀ exp buf pos, pos + exp.length ≤ buf.length →
      FixedByteArray exp buf pos =
        if (buf.drop pos).take exp.length = exp then .ok (exp, pos + exp.length)
        else .error (.fixedByteArray exp ((buf.drop pos).take exp.length)
          (pos + exp.length - 1))) ∧
    (∀ exp n buf pos, pos + exp.length ≤ buf.length →
      FixedString exp n buf pos =
        if (buf.drop pos).take exp.length = exp then .ok (exp, pos + exp.length)
        else .error (.fixedString n exp ((buf.drop pos).take exp.length)
          (pos + exp.length - 1))) := by
  refine ⟨?_, ?_, ?_⟩
  · intro e n buf pos
    unfold FixedByte readByte
    cases h : buf[pos]? with
    | none => rfl
    | some v =>
      dsimp only
      by_cases hv : v = e <;> simp [hv]
  · intro exp buf pos h
    unfold FixedByteArray
    rw [parseArray_readByte, readBytes_eq buf exp.length pos h]
  · intro exp n buf pos h
    unfold FixedString
    rw [readBytes_eq buf exp.length pos h]
    dsimp only
    by_cases hv : (buf.drop pos).take exp.length = exp <;> simp [hv]

/-- Witness for C8: a successful `FixedString` and a failing `FixedByteArray`
at concrete inputs, via the contract. -/
theorem C8_validator_contract_witness :
    FixedString strGIF "Header" [0x47, 0x49, 0x46, 9] 0 = .ok (strGIF, 3) ∧
    FixedByteArray [1, 2] [3, 4] 0 =
      .error (.fixedByteArray [1, 2] [3, 4] 1) := by
  constructor
  · rw [C8_validator_contract.2.2 strGIF "Header" [0x47, 0x49, 0x46, 9] 0
      (by decide)]
    decide
  · rw [C8_validator_contract.2.1 [1, 2] [3, 4] 0 (by decide)]
    decide

/-- Claim C9.  With the flag clear no Color Table is read and the cursor does
not move; with the flag set and size field N (0..7), when enough bytes remain
the decoded table is exactly the `2^(N+1)` consecutive RGB triples (3 bytes
each) and the cursor advances by `3 * 2^(N+1)`. -/
theorem C9_color_table (size : Nat) (buf : List Nat) (pos : Nat)
    (hsize : size ≤ 7) (hlen : pos + 3 * 2 ^ (size + 1) ≤ buf.length) :
    ColorTable 0 size buf pos = .ok (none, pos) ∧
    ColorTable 1 size buf pos =
      .ok (some ((List.range (2 ^ (size + 1))).map fun i =>
        (buf.drop (pos + 3 * i)).take 3), pos + 3 * 2 ^ (size + 1)) ∧
    ((List.range (2 ^ (size + 1))).map fun i =>
      (buf.drop (pos + 3 * i)).take 3).length = 2 ^ (size + 1) ∧
    ∀ c ∈ (List.range (2 ^ (size + 1))).map fun i =>
      (buf.drop (pos + 3 * i)).take 3, c.length = 3 := by
  refine ⟨rfl, ?_, by simp, ?_⟩
  · show PM.bind (parseArray rgb (2 ^ (size + 1))) _ buf pos = _
    unfold PM.bind
    rw [parseArray_rgb_eq buf (2 ^ (size + 1)) pos hlen]
    rfl
  · intro c hc
    simp only [List.mem_map, List.mem_range] at hc
    obtain ⟨i, hi, rfl⟩ := hc
    simp only [List.length_take, List.length_drop]
    omega

/-- Witness for C9 at size 0 on a six-byte table. -/
theorem C9_color_table_witness :
    ColorTable 0 0 [10, 20, 30, 40, 50, 60] 0 = .ok (none, 0) ∧
    ColorTable 1 0 [10, 20, 30, 40, 50, 60] 0 =
      .ok (some [[10, 20, 30], [40, 50, 60]], 6) := by
  have h := C9_color_table 0 [10, 20, 30, 40, 50, 60] 0 (by decide) (by decide)
  refine ⟨h.1, ?_⟩
  rw [h.2.1]
  decide

/-- Claim C10.  The Block Size fields of the Graphic Control Extension, the
Plain Text Extension, and the generic Application Extension are read as plain
bytes: for EVERY byte value `b` in that position the record parses succeed
(with `BlockSize = b` in the result), so none of these parses can fail on
account of the block size — the GIF-mandated constants 0x04, 0x0C, 0x0B are
never checked. -/
theorem C10_block_size_unvalidated : ∀ b : Nat,
    parseGraphicControlExtension [0x21, 0xF9, b, 0, 0, 0, 0, 0] 0 =
      .ok (⟨b, ⟨0, 0, 0, 0⟩, 0, 0⟩, 8) ∧
    parsePlainTextExtension
        [0x21, 0x01, b, 0, 0, 0, 0, 0, 0, 0, 0, 0, 0, 0, 0, 0x00] 0 =
      .ok (⟨b, 0, 0, 0, 0, 0, 0, 0, 0, []⟩, 16) ∧
    parseApplicationExtension
        [0x21, 0xFF, b, 0x41, 0x41, 0x41, 0x41, 0x41, 0x41, 0x41, 0x41,
          1, 2, 3, 0x00, 0x00] 0 =
      .ok (⟨b, [0x41, 0x41, 0x41, 0x41, 0x41, 0x41, 0x41, 0x41],
        [1, 2, 3], []⟩, 15) := by
  intro b
  refine ⟨?_, by rfl, by rfl⟩
  have hG : parseGraphicControlExtension [0x21, 0xF9, b, 0, 0, 0, 0, 0] 0 =
      .ok (⟨b, ⟨bitField 0 5 3, bitField 0 2 3, bitField 0 1 1,
        bitField 0 0 1⟩, 0 + 256 * 0, 0⟩, 8) := rfl
  rw [hG]
  simp [bitField]

end Gif
